import Mathlib

/-
Verification development for the container-metadata-to-scrape-target
resolution engine of prometheus_docker_sd (src/docker/docker.go).

The Go code in `extract`, `matchScrapePort` and `findLowestTCPPrivatePort`
is embedded shallowly below.  Go maps are modelled as association lists
with last-write-wins insertion (`insertLM`) and first-match lookup
(`lookupLM`); Go map values of pointer type that may be nil are modelled
with `Option`; the nil-pointer dereference reachable in `extract` is
modelled by the `crash` outcome.  All embedded helpers from the Go
standard library and the prometheus common library are defined here with
their documented behavior (see the doc comment on each).
-/

namespace DockerSD

/-- Association-list lookup, first match; models a Go map read
(`v, ok := m[k]`). -/
def lookupLM (m : List (String × String)) (k : String) : Option String :=
  match m with
  | [] => none
  | kv :: rest => if kv.1 = k then some kv.2 else lookupLM rest k

/-- Association-list insert with unique keys; models a Go map write
(`m[k] = v`, overwriting an existing binding). -/
def insertLM (m : List (String × String)) (k v : String) : List (String × String) :=
  match m with
  | [] => [(k, v)]
  | kv :: rest => if kv.1 = k then (k, v) :: rest else kv :: insertLM rest k v

/-- Character sanitization of prometheus/util/strutil.SanitizeLabelName:
every character outside [a-zA-Z0-9_] is replaced by an underscore. -/
def sanitizeChar (c : Char) : Char :=
  if ('a' ≤ c ∧ c ≤ 'z') ∨ ('A' ≤ c ∧ c ≤ 'Z') ∨ ('0' ≤ c ∧ c ≤ '9') ∨ c = '_' then c
  else '_'

/-- Embeds prometheus/util/strutil.SanitizeLabelName
(regexp `[^a-zA-Z0-9_]` replaced by `_`). -/
def sanitizeLabelName (s : String) : String :=
  ⟨s.data.map sanitizeChar⟩

/-- Embeds Go strings.HasPrefix.  Go compares bytes; the prefixes used by
the program are pure ASCII, for which byte- and character-prefix agree. -/
def goHasPre (s pre : String) : Bool :=
  pre.data.isPrefixOf s.data

/-- Embeds the Go byte-slicing `s[n:]` for the all-ASCII strings it is
applied to (sanitized label names), where byte and character counts agree. -/
def goDrop (s : String) (n : Nat) : String :=
  ⟨s.data.drop n⟩

/-- ASCII lowercasing character map of Go strings.ToLower (the label
values compared here are matched against the ASCII literal "true"). -/
def asciiLowerChar (c : Char) : Char :=
  if 'A' ≤ c ∧ c ≤ 'Z' then Char.ofNat (c.toNat + 32) else c

/-- Embeds Go strings.ToLower on the ASCII fragment. -/
def asciiLower (s : String) : String :=
  ⟨s.data.map asciiLowerChar⟩

/-- Decimal digit character. -/
def digitChar (n : Nat) : Char := Char.ofNat (48 + n)

/-- Fuel-driven decimal formatter; with fuel ≥ 1 it emits the digits of n
before acc. -/
def formatUintAux : Nat → Nat → List Char → List Char
  | 0, _, acc => acc
  | fuel + 1, n, acc =>
    if n < 10 then digitChar n :: acc
    else formatUintAux fuel (n / 10) (digitChar (n % 10) :: acc)

/-- Embeds Go strconv.FormatUint(n, 10): canonical decimal digits. -/
def formatUint (n : Nat) : String :=
  ⟨formatUintAux (n + 1) n []⟩

/-- Embeds Go strconv.Atoi: optional sign followed by decimal digits;
returns 0 on a syntax error and the clamped int64 bound on overflow
(the Go caller discards the error either way). -/
def goAtoi (s : String) : Int :=
  match s.data with
  | [] => 0
  | c :: rest =>
    let signed : Bool × List Char :=
      if c = '-' then (true, rest)
      else if c = '+' then (false, rest)
      else (false, c :: rest)
    if signed.2 = [] then 0
    else if signed.2.all Char.isDigit then
      let n : Nat := signed.2.foldl (fun acc d => acc * 10 + (d.toNat - 48)) 0
      let v : Int := if signed.1 then -(n : Int) else (n : Int)
      if v > 9223372036854775807 then 9223372036854775807
      else if v < -9223372036854775808 then -9223372036854775808
      else v
    else 0

/-- Embeds the Go conversion uint16(i) for i : int — the low 16 bits,
i.e. i modulo 2^16 in two's complement. -/
def goUint16OfInt (i : Int) : Nat :=
  (i % 65536).toNat

/-- Embeds Go net.JoinHostPort: hosts containing a colon are bracketed
(the colon test is over the characters, which for UTF-8 coincides with
Go's byte search for ':'). -/
def joinHostPort (host port : String) : String :=
  if host.data.contains ':' then "[" ++ host ++ "]" ++ ":" ++ port
  else host ++ ":" ++ port

/-- types.Port of the Docker API: transport type ("tcp"/"udp"), private
port (uint16, modelled as Nat), optional public port and public host IP
(zero values 0 / "" when absent). -/
structure Port where
  typ : String
  PrivatePort : Nat
  PublicPort : Nat
  IP : String
deriving DecidableEq

/-- network.EndpointSettings fields read by the program. -/
structure Network where
  IPAddress : String
  NetworkID : String
deriving DecidableEq

/-- types.Container fields read by the program.  `Networks` models
c.NetworkSettings.Networks (map name → *EndpointSettings); a missing
entry is the absent case of `lookupNet`. -/
structure Container where
  ID : String
  Names : List String
  Labels : List (String × String)
  Ports : List Port
  Networks : List (String × Network)
  State : String
  NetworkMode : String
deriving DecidableEq

/-- Lookup in the container's network table. -/
def lookupNet (m : List (String × Network)) (k : String) : Option Network :=
  match m with
  | [] => none
  | kv :: rest => if kv.1 = k then some kv.2 else lookupNet rest k

/-- Lookup in the network-labels map (map network ID → label map); a Go
read of a missing key yields a nil map, over which range does nothing,
hence the empty list default. -/
def lookupNL (m : List (String × List (String × String))) (k : String) :
    List (String × String) :=
  match m with
  | [] => []
  | kv :: rest => if kv.1 = k then kv.2 else lookupNL rest k

-- Label-name constants of src/docker/docker.go (model.MetaLabelPrefix = "__meta_").
def dockerLabelContainerID : String := "__meta_docker_container_id"
def dockerLabelContainerName : String := "__meta_docker_container_name"
def dockerLabelContainerState : String := "__meta_docker_container_state"
def dockerLabelContainerNetworkMode : String := "__meta_docker_container_network_mode"
def dockerLabelContainerLabelPre : String := "__meta_docker_container_label_"
def dockerLabelNetworkIP : String := "__meta_docker_network_ip"
def dockerLabelPortPrivate : String := "__meta_docker_port_private"
def dockerLabelPortPublic : String := "__meta_docker_port_public"
def dockerLabelPortPublicIP : String := "__meta_docker_port_public_ip"
def extractLabelPre : String := "prometheus_"
def jobLabelKey : String := "prometheus_job"
def extractScrapePre : String := "prometheus_scrape_"
def scrapePortKey : String := "prometheus_scrape_port"
def scrapeIntervalKey : String := "prometheus_scrape_interval"
def scrapeTimeoutKey : String := "prometheus_scrape_timeout"
def scrapePathKey : String := "prometheus_scrape_path"
def scrapeSchemeKey : String := "prometheus_scrape_scheme"
def scrapeExternalKey : String := "prometheus_scrape_external"
def scrapeIntervalLabel : String := "__scrape_interval__"
def scrapeTimeoutLabel : String := "__scrape_timeout__"
def metricsPathLabel : String := "__metrics_path__"
def schemeLabel : String := "__scheme__"
def addressLabel : String := "__address__"
def instanceLabel : String := "instance"
def fakeIP : String := "1.1.1.1"

/-- The Meta record produced per container (src/docker/docker.go lines 64-74). -/
structure Meta where
  Name : String
  Address : String
  Labels : List (String × String)
  HasJob : Bool
  IsInTargetNetwork : Bool
  HasTCPPorts : Bool
  HasExplicitPort : Bool
  ScrapeExternal : Bool
deriving DecidableEq

/-- Meta.IsExported (docker.go lines 77-79). -/
def Meta.IsExported (m : Meta) : Bool :=
  m.HasJob && m.IsInTargetNetwork && m.HasTCPPorts

/-- matchScrapePort (docker.go lines 303-313): first TCP entry whose
private port formats to the scrape-port string. -/
def matchScrapePort (xs : List Port) (sp : String) : Option Port :=
  match xs with
  | [] => none
  | x :: rest =>
    if ¬ (x.typ = "tcp") then matchScrapePort rest sp
    else if formatUint x.PrivatePort = sp then some x
    else matchScrapePort rest sp

/-- Loop of findLowestTCPPrivatePort (docker.go lines 315-338), carrying
(min, entry, seen, candidates); returns (entry, candidates, min). -/
def flpAux : List Port → Nat → Port → List Nat → Nat → Port × Nat × Nat
  | [], mn, e, _, cand => (e, cand, mn)
  | x :: rest, mn, e, seen, cand =>
    if ¬ (x.typ = "tcp") then flpAux rest mn e seen cand
    else
      let me : Nat × Port := if x.PrivatePort < mn then (x.PrivatePort, x) else (mn, e)
      let cand2 : Nat := if seen.contains x.PrivatePort then cand else cand + 1
      flpAux rest me.1 me.2 (x.PrivatePort :: seen) cand2

/-- findLowestTCPPrivatePort (docker.go lines 315-338): entry with the
lowest TCP private port, the count of distinct TCP private ports, and
whether the running minimum dropped below math.MaxUint16 = 65535.  The
initial entry is the Go zero value of types.Port. -/
def findLowestTCPPrivatePort (xs : List Port) : Port × Nat × Bool :=
  let r := flpAux xs 65535 (Port.mk "" 0 0 "") [] 0
  (r.1, r.2.1, decide (r.2.2 < 65535))

/-- State carried through the label loop of extract (docker.go lines
193-217): the output label map built so far, the explicit scrape-port
value (`var port string`), and the scrape-external flag. -/
structure LabelState where
  labels : List (String × String)
  port : String
  scrapeExternal : Bool
deriving DecidableEq

/-- One iteration of the label loop of extract (docker.go lines 194-217):
sanitize the key; keys sanitizing under the scrape prefix are switched on
the raw key (unrecognized ones fall through the switch and are dropped);
other keys under the export prefix are stripped (11 = byte length of
"prometheus_"); the rest are namespaced under the container-label prefix. -/
def processLabel (st : LabelState) (kv : String × String) : LabelState :=
  let ln := sanitizeLabelName kv.1
  if goHasPre ln extractScrapePre then
    if kv.1 = scrapePortKey then LabelState.mk st.labels kv.2 st.scrapeExternal
    else if kv.1 = scrapeIntervalKey then
      LabelState.mk (insertLM st.labels scrapeIntervalLabel kv.2) st.port st.scrapeExternal
    else if kv.1 = scrapeTimeoutKey then
      LabelState.mk (insertLM st.labels scrapeTimeoutLabel kv.2) st.port st.scrapeExternal
    else if kv.1 = scrapePathKey then
      LabelState.mk (insertLM st.labels metricsPathLabel kv.2) st.port st.scrapeExternal
    else if kv.1 = scrapeSchemeKey then
      LabelState.mk (insertLM st.labels schemeLabel kv.2) st.port st.scrapeExternal
    else if kv.1 = scrapeExternalKey then
      LabelState.mk st.labels st.port (decide (asciiLower kv.2 = "true"))
    else st
  else if goHasPre ln extractLabelPre then
    LabelState.mk (insertLM st.labels (goDrop ln 11) kv.2) st.port st.scrapeExternal
  else
    LabelState.mk (insertLM st.labels (dockerLabelContainerLabelPre ++ ln) kv.2)
      st.port st.scrapeExternal

/-- The identity labels set when the Meta record is created (docker.go
lines 181-187); the four keys are distinct constants. -/
def initLabels (c : Container) (nm : String) : List (String × String) :=
  [(dockerLabelContainerID, c.ID),
   (dockerLabelContainerName, nm),
   (dockerLabelContainerState, c.State),
   (dockerLabelContainerNetworkMode, c.NetworkMode)]

/-- The full label loop as a fold over the container's label pairs. -/
def labelScan (ls : List (String × String)) (init : LabelState) : LabelState :=
  ls.foldl processLabel init

/-- The synthetic-port edge case of extract (docker.go lines 231-241):
with no live ports but an explicit scrape-port value, one TCP port entry
is synthesized from uint16(Atoi(port)), and an empty network IP is
replaced by the fake placeholder IP. -/
def portsAndIP (ports0 : List Port) (port0 ipAddr : String) : List Port × String :=
  if ports0 = [] ∧ ¬ (port0 = "") then
    ([Port.mk "tcp" (goUint16OfInt (goAtoi port0)) 0 ""],
     if ipAddr = "" then fakeIP else ipAddr)
  else (ports0, ipAddr)

/-- Tail of the extract loop body after a port has been selected
(docker.go lines 262-286): private/public port labels, network-derived
labels, final port string, address, address and instance labels. -/
def finishMeta (ipre ehost : String) (nls : List (String × List (String × String)))
    (nm : String) (hasJob ext : Bool) (labels1 : List (String × String))
    (ip port0 : String) (p : Port) (explicit : Bool) (n : Network) : Meta :=
  let labels2 := insertLM labels1 dockerLabelPortPrivate (formatUint p.PrivatePort)
  let labels3 :=
    if p.PublicPort > 0 then
      insertLM (insertLM labels2 dockerLabelPortPublic (formatUint p.PublicPort))
        dockerLabelPortPublicIP p.IP
    else labels2
  let labels4 := (lookupNL nls n.NetworkID).foldl (fun acc kv => insertLM acc kv.1 kv.2) labels3
  let portS := if port0 = "" then formatUint p.PrivatePort else port0
  let addr := if ext then joinHostPort ehost portS else joinHostPort ip portS
  let labels5 := insertLM labels4 addressLabel addr
  let labels6 := insertLM labels5 instanceLabel (ipre ++ nm ++ ":" ++ portS)
  Meta.mk nm addr labels6 hasJob true true explicit ext

/-- The extract loop body once the network entry is present (docker.go
lines 229-286): synthetic-port edge case, network-IP label, explicit
port match with fallback to the lowest TCP private port, or the
no-TCP-ports early record. -/
def resolveNet (ipre ehost : String) (nls : List (String × List (String × String)))
    (c : Container) (nm : String) (hasJob : Bool) (st : LabelState) (n : Network) : Meta :=
  let pr := portsAndIP c.Ports st.port n.IPAddress
  let labels1 := insertLM st.labels dockerLabelNetworkIP pr.2
  match matchScrapePort pr.1 st.port with
  | some p => finishMeta ipre ehost nls nm hasJob st.scrapeExternal labels1 pr.2 st.port p true n
  | none =>
    let r := findLowestTCPPrivatePort pr.1
    if r.2.2 then
      finishMeta ipre ehost nls nm hasJob st.scrapeExternal labels1 pr.2 st.port r.1
        ((r.2.1 == 1) || (st.port != "")) n
    else
      Meta.mk nm "" labels1 hasJob true false false st.scrapeExternal

/-- Outcome of one container in the extract loop: skipped (no names),
a Meta record appended to the result, or a runtime panic. -/
inductive ResolveOutcome where
  | skip : ResolveOutcome
  | record (m : Meta) : ResolveOutcome
  | crash : ResolveOutcome
deriving DecidableEq

/-- The extract loop body for one container (docker.go lines 172-287).
`crash` models the nil-pointer dereference of `n.IPAddress` (line 227):
the map read on line 219 yields a nil *EndpointSettings when the target
network is absent, and the line-220 guard skips the dereference only
when ScrapeExternal is false. -/
def resolveContainer (ipre ehost tnet : String)
    (nls : List (String × List (String × String))) (c : Container) : ResolveOutcome :=
  match c.Names with
  | [] => .skip
  | nm :: _ =>
    let hasJob := (lookupLM c.Labels jobLabelKey).isSome
    let st := labelScan c.Labels (LabelState.mk (initLabels c nm) "" false)
    match lookupNet c.Networks tnet with
    | some n => .record (resolveNet ipre ehost nls c nm hasJob st n)
    | none =>
      if st.scrapeExternal then .crash
      else .record (Meta.mk nm "" st.labels hasJob false false false st.scrapeExternal)

/-- The extract loop over all containers; a crash anywhere aborts the
whole call (a Go panic propagates out of extract). -/
def resolveAll (ipre ehost tnet : String)
    (nls : List (String × List (String × String))) : List Container → Option (List Meta)
  | [] => some []
  | c :: rest =>
    match resolveContainer ipre ehost tnet nls c with
    | .crash => none
    | .skip => resolveAll ipre ehost tnet nls rest
    | .record m =>
      match resolveAll ipre ehost tnet nls rest with
      | none => none
      | some ms => some (m :: ms)

/-- Lexicographic strict comparison of char lists by code point; for
valid UTF-8 this coincides with Go's byte-wise string `<`. -/
def charsLess : List Char → List Char → Bool
  | [], [] => false
  | [], _ :: _ => true
  | _ :: _, [] => false
  | a :: as, b :: bs =>
    if a.toNat < b.toNat then true
    else if b.toNat < a.toNat then false
    else charsLess as bs

/-- Embeds Go string comparison `a < b`. -/
def goStrLess (a b : String) : Bool := charsLess a.data b.data

/-- The comparator passed to sort.Slice (docker.go lines 289-298):
not-exported records first, then ascending by name. -/
def metaLess (x y : Meta) : Bool :=
  if (! x.IsExported) && y.IsExported then true
  else if x.IsExported && (! y.IsExported) then false
  else goStrLess x.Name y.Name

/-- The total preorder companion of `metaLess`, used to state sortedness. -/
def metaLE (x y : Meta) : Bool := ! metaLess y x

/-- Insertion step of the model of sort.Slice. -/
def insertSorted (x : Meta) : List Meta → List Meta
  | [] => [x]
  | y :: ys => if metaLE x y then x :: y :: ys else y :: insertSorted x ys

/-- Model of sort.Slice with the comparator of docker.go lines 289-298:
a sorted permutation of the input (the Go sort is unstable; every
property claimed of the ordering is comparator-determined). -/
def sortMetas (xs : List Meta) : List Meta := xs.foldr insertSorted []

/-- extract (docker.go lines 168-301), minus the logger: resolve every
container, then sort; `none` models a panic escaping the call. -/
def extract (ipre ehost tnet : String) (cs : List Container)
    (nls : List (String × List (String × String))) : Option (List Meta) :=
  match resolveAll ipre ehost tnet nls cs with
  | none => none
  | some ms => some (sortMetas ms)

example :
    (extract "host1" "eh" "metrics-net"
      [Container.mk "containerID" ["/containerName"] [("prometheus_job", "job1")]
        [Port.mk "tcp" 2000 0 ""] [("metrics-net", Network.mk "ip1" "nid")] "running" "default"]
      []).map
      (List.map (fun m => (m.Address, lookupLM m.Labels "instance", m.HasExplicitPort,
        lookupLM m.Labels "job"))) =
    some [("ip1:2000", some "host1/containerName:2000", true, some "job1")] := by decide

/-! Basic lemmas about the embedded helpers. -/

lemma lookupLM_insertLM_ne (m : List (String × String)) (a v k : String) (h : ¬ (a = k)) :
    lookupLM (insertLM m a v) k = lookupLM m k := by
  induction m with
  | nil => simp [insertLM, lookupLM, h]
  | cons kv rest ih =>
    by_cases hk : kv.1 = a
    · simp [insertLM, hk, lookupLM, h]
    · simp only [insertLM, hk, if_false]
      by_cases hkk : kv.1 = k
      · simp [lookupLM, hkk]
      · simp [lookupLM, hkk, ih]

lemma formatUintAux_ne_nil_acc (fuel : Nat) :
    ∀ (n : Nat) (acc : List Char), acc ≠ [] → formatUintAux fuel n acc ≠ [] := by
  induction fuel with
  | zero => intro n acc h; simpa [formatUintAux] using h
  | succ f ih =>
    intro n acc h
    simp only [formatUintAux]
    by_cases hn : n < 10
    · simp [hn]
    · simp only [hn, if_false]
      exact ih (n / 10) (digitChar (n % 10) :: acc) (by simp)

lemma formatUintAux_ne_nil (fuel n : Nat) (acc : List Char) (hf : ¬ (fuel = 0)) :
    formatUintAux fuel n acc ≠ [] := by
  cases fuel with
  | zero => exact absurd rfl hf
  | succ f =>
    simp only [formatUintAux]
    by_cases hn : n < 10
    · simp [hn]
    · simp only [hn, if_false]
      exact formatUintAux_ne_nil_acc f (n / 10) (digitChar (n % 10) :: acc) (by simp)

lemma formatUint_ne_empty (n : Nat) : ¬ (formatUint n = "") := by
  intro h
  exact formatUintAux_ne_nil (n + 1) n [] (Nat.succ_ne_zero n) (congrArg String.data h)

lemma matchScrapePort_empty (xs : List Port) : matchScrapePort xs "" = none := by
  induction xs with
  | nil => rfl
  | cons x rest ih =>
    simp only [matchScrapePort]
    by_cases ht : x.typ = "tcp"
    · simp [ht, formatUint_ne_empty, ih]
    · simp [ht, ih]

lemma joinHostPort_ne_empty (h p : String) : ¬ (joinHostPort h p = "") := by
  intro e
  have hd := congrArg String.data e
  unfold joinHostPort at hd
  by_cases hc : h.data.contains ':'
  · simp only [hc, if_true] at hd
    simp [String.data_append] at hd
  · simp only [hc, if_false] at hd
    simp [String.data_append] at hd

/-! Specification of the findLowestTCPPrivatePort loop. -/

lemma flpAux_spec (xs : List Port) :
    ∀ (mn : Nat) (e : Port) (seen : List Nat) (cand : Nat),
      mn ≤ 65535 →
      (mn < 65535 → e.typ = "tcp" ∧ e.PrivatePort = mn) →
      (flpAux xs mn e seen cand).2.2 ≤ mn ∧
      ((flpAux xs mn e seen cand).2.2 < 65535 →
        (flpAux xs mn e seen cand).1.typ = "tcp" ∧
        (flpAux xs mn e seen cand).1.PrivatePort = (flpAux xs mn e seen cand).2.2 ∧
        ((flpAux xs mn e seen cand).1 = e ∨ (flpAux xs mn e seen cand).1 ∈ xs)) ∧
      (∀ x ∈ xs, x.typ = "tcp" → (flpAux xs mn e seen cand).2.2 ≤ x.PrivatePort) ∧
      ((∃ x ∈ xs, x.typ = "tcp" ∧ x.PrivatePort < 65535) →
        (flpAux xs mn e seen cand).2.2 < 65535) := by
  induction xs with
  | nil =>
    intro mn e seen cand h1 h2
    refine ⟨Nat.le_refl mn, ?_, ?_, ?_⟩
    · intro hlt; exact ⟨(h2 hlt).1, (h2 hlt).2, Or.inl rfl⟩
    · intro x hx; exact absurd hx (List.not_mem_nil x)
    · rintro ⟨x, hx, -⟩; exact absurd hx (List.not_mem_nil x)
  | cons x rest ih =>
    intro mn e seen cand h1 h2
    by_cases ht : x.typ = "tcp"
    · simp only [flpAux, ht, not_true_eq_false, if_false]
      by_cases hlt : x.PrivatePort < mn
      · simp only [hlt, if_true]
        have h1' : x.PrivatePort ≤ 65535 := Nat.le_of_lt (Nat.lt_of_lt_of_le hlt h1)
        have h2' : x.PrivatePort < 65535 → x.typ = "tcp" ∧ x.PrivatePort = x.PrivatePort :=
          fun _ => ⟨ht, rfl⟩
        obtain ⟨a, b, c, d⟩ := ih x.PrivatePort x (x.PrivatePort :: seen)
          (if seen.contains x.PrivatePort then cand else cand + 1) h1' h2'
        refine ⟨Nat.le_trans a (Nat.le_of_lt hlt), ?_, ?_, ?_⟩
        · intro hm
          obtain ⟨ba, bb, bc⟩ := b hm
          exact ⟨ba, bb, bc.elim
            (fun hh => Or.inr (by rw [hh]; exact List.mem_cons_self x rest))
            (fun hh => Or.inr (List.mem_cons_of_mem x hh))⟩
        · intro y hy hty
          rcases List.mem_cons.mp hy with hy | hy
          · exact hy ▸ a
          · exact c y hy hty
        · rintro ⟨y, hy, hty, hyl⟩
          rcases List.mem_cons.mp hy with hy | hy
          · subst hy; exact Nat.lt_of_le_of_lt a hyl
          · exact d ⟨y, hy, hty, hyl⟩
      · simp only [hlt, if_false]
        obtain ⟨a, b, c, d⟩ := ih mn e (x.PrivatePort :: seen)
          (if seen.contains x.PrivatePort then cand else cand + 1) h1 h2
        refine ⟨a, ?_, ?_, ?_⟩
        · intro hm
          obtain ⟨ba, bb, bc⟩ := b hm
          exact ⟨ba, bb, bc.elim Or.inl (fun hh => Or.inr (List.mem_cons_of_mem x hh))⟩
        · intro y hy hty
          rcases List.mem_cons.mp hy with hy | hy
          · subst hy; exact Nat.le_trans a (Nat.le_of_not_lt hlt)
          · exact c y hy hty
        · rintro ⟨y, hy, hty, hyl⟩
          rcases List.mem_cons.mp hy with hy | hy
          · subst hy
            have : mn < 65535 := by omega
            exact Nat.lt_of_le_of_lt a this
          · exact d ⟨y, hy, hty, hyl⟩
    · simp only [flpAux, ht, not_false_eq_true, if_true]
      obtain ⟨a, b, c, d⟩ := ih mn e seen cand h1 h2
      refine ⟨a, ?_, ?_, ?_⟩
      · intro hm
        obtain ⟨ba, bb, bc⟩ := b hm
        exact ⟨ba, bb, bc.elim Or.inl (fun hh => Or.inr (List.mem_cons_of_mem x hh))⟩
      · intro y hy hty
        rcases List.mem_cons.mp hy with hy | hy
        · subst hy; exact absurd hty ht
        · exact c y hy hty
      · rintro ⟨y, hy, hty, hyl⟩
        rcases List.mem_cons.mp hy with hy | hy
        · subst hy; exact absurd hty ht
        · exact d ⟨y, hy, hty, hyl⟩

/-- Specification-side helper for stating the claims: the private ports
of the TCP entries of a port list, in order. -/
def tcpPrivatePorts (xs : List Port) : List Nat :=
  xs.filterMap (fun x => if x.typ = "tcp" then some x.PrivatePort else none)

/-- Specification-side helper: how many values of the list are new with
respect to `seen`, counting repeated values once — the candidate tally
("distinct private ports") of the claims. -/
def countNewDistinct (seen : List Nat) : List Nat → Nat
  | [] => 0
  | p :: ps =>
    if seen.contains p then countNewDistinct (p :: seen) ps
    else countNewDistinct (p :: seen) ps + 1

lemma flpAux_cand (xs : List Port) :
    ∀ (mn : Nat) (e : Port) (seen : List Nat) (cand : Nat),
      (flpAux xs mn e seen cand).2.1 = cand + countNewDistinct seen (tcpPrivatePorts xs) := by
  induction xs with
  | nil => intro mn e seen cand; simp [flpAux, tcpPrivatePorts, countNewDistinct]
  | cons x rest ih =>
    intro mn e seen cand
    by_cases ht : x.typ = "tcp"
    · have htp : tcpPrivatePorts (x :: rest) = x.PrivatePort :: tcpPrivatePorts rest := by
        simp [tcpPrivatePorts, List.filterMap_cons, ht]
      simp only [flpAux, ht, not_true_eq_false, if_false, htp]
      by_cases hs : seen.contains x.PrivatePort
      · simp only [hs, if_true, countNewDistinct]
        by_cases hlt : x.PrivatePort < mn <;> simp [hlt, ih]
      · simp only [hs, if_false, countNewDistinct, Bool.false_eq_true]
        by_cases hlt : x.PrivatePort < mn <;> simp [hlt, ih] <;> omega
    · have htp : tcpPrivatePorts (x :: rest) = tcpPrivatePorts rest := by
        simp [tcpPrivatePorts, List.filterMap_cons, ht]
      simp only [flpAux, ht, not_false_eq_true, if_true, htp]
      exact ih mn e seen cand

lemma findLowest_cand (xs : List Port) :
    (findLowestTCPPrivatePort xs).2.1 = countNewDistinct [] (tcpPrivatePorts xs) := by
  simp [findLowestTCPPrivatePort, flpAux_cand]

lemma findLowest_found (xs : List Port)
    (hex : ∃ x ∈ xs, x.typ = "tcp" ∧ x.PrivatePort < 65535) :
    (findLowestTCPPrivatePort xs).2.2 = true ∧
    (findLowestTCPPrivatePort xs).1.typ = "tcp" ∧
    (findLowestTCPPrivatePort xs).1 ∈ xs ∧
    (∀ x ∈ xs, x.typ = "tcp" →
      (findLowestTCPPrivatePort xs).1.PrivatePort ≤ x.PrivatePort) := by
  obtain ⟨a, b, c, d⟩ := flpAux_spec xs 65535 (Port.mk "" 0 0 "") [] 0 (Nat.le_refl _)
    (fun h => absurd h (by omega))
  have hm := d hex
  obtain ⟨ba, bb, bc⟩ := b hm
  refine ⟨by simp [findLowestTCPPrivatePort]; exact hm, by simpa [findLowestTCPPrivatePort] using ba, ?_, ?_⟩
  · rcases bc with h0 | hmem
    · exfalso; rw [h0] at ba; simp at ba
    · simpa [findLowestTCPPrivatePort] using hmem
  · intro y hy hty
    have hc := c y hy hty
    have : (flpAux xs 65535 (Port.mk "" 0 0 "") [] 0).1.PrivatePort ≤ y.PrivatePort := by
      rw [bb]; exact hc
    simpa [findLowestTCPPrivatePort] using this

lemma mem_tcpPrivatePorts {pp : Nat} {xs : List Port} (h : pp ∈ tcpPrivatePorts xs) :
    ∃ x ∈ xs, x.typ = "tcp" ∧ x.PrivatePort = pp := by
  simp only [tcpPrivatePorts, List.mem_filterMap] at h
  obtain ⟨x, hx, hfx⟩ := h
  by_cases ht : x.typ = "tcp"
  · simp only [ht, if_true, Option.some.injEq] at hfx
    exact ⟨x, hx, ht, hfx⟩
  · simp [ht] at hfx

lemma cnd_exists_unseen (ps : List Nat) :
    ∀ (seen : List Nat), 1 ≤ countNewDistinct seen ps →
      ∃ p ∈ ps, seen.contains p = false := by
  induction ps with
  | nil => intro seen h; simp [countNewDistinct] at h
  | cons p rest ih =>
    intro seen h
    by_cases hs : seen.contains p
    · simp only [countNewDistinct, hs, if_true] at h
      obtain ⟨q, hq, hqs⟩ := ih (p :: seen) h
      have hqseen : seen.contains q = false := by
        by_cases hqs2 : seen.contains q
        · exfalso
          have : (p :: seen).contains q = true := by
            simp only [List.contains_cons, hqs2, Bool.or_true]
          rw [this] at hqs; exact absurd hqs (by simp)
        · simpa using hqs2
      exact ⟨q, List.mem_cons_of_mem p hq, hqseen⟩
    · exact ⟨p, List.mem_cons_self p rest, by simpa using hs⟩

lemma cnd_two_distinct (ps : List Nat) (h : 2 ≤ countNewDistinct [] ps) :
    ∃ p ∈ ps, ∃ q ∈ ps, ¬ (p = q) := by
  cases ps with
  | nil => simp [countNewDistinct] at h
  | cons p rest =>
    have hs : (([] : List Nat)).contains p = false := rfl
    simp only [countNewDistinct, hs, Bool.false_eq_true, if_false] at h
    obtain ⟨q, hq, hqs⟩ := cnd_exists_unseen rest [p] (by omega)
    have hpq : ¬ (q = p) := by
      intro e
      subst e
      simp [List.contains_cons] at hqs
    exact ⟨p, List.mem_cons_self p rest, q, List.mem_cons_of_mem p hq,
      fun e => hpq e.symm⟩

/-! Order lemmas for the sort comparator. -/

lemma charsLess_asym : ∀ (a b : List Char), charsLess a b = true → charsLess b a = false := by
  intro a
  induction a with
  | nil =>
    intro b h
    cases b with
    | nil => simp [charsLess] at h
    | cons y ys => simp [charsLess]
  | cons x xs ih =>
    intro b h
    cases b with
    | nil => simp [charsLess] at h
    | cons y ys =>
      simp only [charsLess] at h ⊢
      by_cases h1 : x.toNat < y.toNat
      · have h2 : ¬ (y.toNat < x.toNat) := by omega
        simp [h1, h2]
      · by_cases h2 : y.toNat < x.toNat
        · simp [h1, h2] at h
        · simp only [h1, h2, if_false] at h
          simp [h1, h2, ih ys h]

lemma charsLess_le_trans :
    ∀ (a b c : List Char), charsLess b a = false → charsLess c b = false →
      charsLess c a = false := by
  intro a
  induction a with
  | nil =>
    intro b c h1 h2
    cases c with
    | nil => simp [charsLess]
    | cons z zs => simp [charsLess]
  | cons x xs ih =>
    intro b c h1 h2
    cases c with
    | nil =>
      cases b with
      | nil => simp [charsLess] at h1
      | cons y ys => simp [charsLess] at h2
    | cons z zs =>
      cases b with
      | nil => simp [charsLess] at h1
      | cons y ys =>
        simp only [charsLess] at h1 h2 ⊢
        by_cases hyx : y.toNat < x.toNat
        · simp [hyx] at h1
        · by_cases hzy : z.toNat < y.toNat
          · simp [hzy] at h2
          · by_cases hxy : x.toNat < y.toNat
            · have hzx : ¬ (z.toNat < x.toNat) := by omega
              have hxz : x.toNat < z.toNat := by omega
              simp [hzx, hxz]
            · simp only [hyx, hxy, if_false] at h1
              by_cases hyz : y.toNat < z.toNat
              · have hzx : ¬ (z.toNat < x.toNat) := by omega
                have hxz : x.toNat < z.toNat := by omega
                simp [hzx, hxz]
              · simp only [hzy, hyz, if_false] at h2
                have hzx : ¬ (z.toNat < x.toNat) := by omega
                have hxz : ¬ (x.toNat < z.toNat) := by omega
                simp only [hzx, hxz, if_false]
                exact ih ys zs h1 h2

lemma goStrLess_asym (a b : String) (h : goStrLess a b = true) : goStrLess b a = false :=
  charsLess_asym a.data b.data h

lemma goStrLess_le_trans (a b c : String) (h1 : goStrLess b a = false)
    (h2 : goStrLess c b = false) : goStrLess c a = false :=
  charsLess_le_trans a.data b.data c.data h1 h2

lemma metaLess_asym (x y : Meta) (h : metaLess x y = true) : metaLess y x = false := by
  unfold metaLess at h ⊢
  cases hx : x.IsExported <;> cases hy : y.IsExported <;> simp [hx, hy] at h ⊢
  · exact goStrLess_asym x.Name y.Name h
  · exact goStrLess_asym x.Name y.Name h

lemma metaLess_le_trans (x y z : Meta) (h1 : metaLess y x = false)
    (h2 : metaLess z y = false) : metaLess z x = false := by
  unfold metaLess at h1 h2 ⊢
  cases hx : x.IsExported <;> cases hy : y.IsExported <;> cases hz : z.IsExported <;>
    simp [hx, hy, hz] at h1 h2 ⊢ <;>
    exact goStrLess_le_trans x.Name y.Name z.Name h1 h2

lemma metaLE_total (x y : Meta) : metaLE x y = true ∨ metaLE y x = true := by
  unfold metaLE
  by_cases h : metaLess y x = true
  · right
    have := metaLess_asym y x h
    simp [this]
  · left
    simp [Bool.not_eq_true] at h
    simp [h]

lemma metaLE_trans (x y z : Meta) (h1 : metaLE x y = true) (h2 : metaLE y z = true) :
    metaLE x z = true := by
  unfold metaLE at h1 h2 ⊢
  simp only [Bool.not_eq_true'] at h1 h2 ⊢
  exact metaLess_le_trans x y z h1 h2

lemma mem_insertSorted {z x : Meta} {l : List Meta} (h : z ∈ insertSorted x l) :
    z = x ∨ z ∈ l := by
  induction l with
  | nil => simpa [insertSorted] using h
  | cons y ys ih =>
    simp only [insertSorted] at h
    by_cases hle : metaLE x y = true
    · rw [if_pos hle] at h
      rcases List.mem_cons.mp h with h | h
      · exact Or.inl h
      · exact Or.inr h
    · rw [if_neg hle] at h
      rcases List.mem_cons.mp h with h | h
      · exact Or.inr (by rw [h]; exact List.mem_cons_self y ys)
      · rcases ih h with h' | h'
        · exact Or.inl h'
        · exact Or.inr (List.mem_cons_of_mem y h')

lemma pairwise_insertSorted (x : Meta) (l : List Meta)
    (h : l.Pairwise (fun a b => metaLE a b = true)) :
    (insertSorted x l).Pairwise (fun a b => metaLE a b = true) := by
  induction l with
  | nil => simp [insertSorted]
  | cons y ys ih =>
    rw [List.pairwise_cons] at h
    obtain ⟨hy, hys⟩ := h
    simp only [insertSorted]
    by_cases hle : metaLE x y = true
    · rw [if_pos hle, List.pairwise_cons]
      refine ⟨?_, ?_⟩
      · intro z hz
        rcases List.mem_cons.mp hz with hz | hz
        · rw [hz]; exact hle
        · exact metaLE_trans x y z hle (hy z hz)
      · rw [List.pairwise_cons]; exact ⟨hy, hys⟩
    · rw [if_neg hle, List.pairwise_cons]
      refine ⟨?_, ih hys⟩
      intro z hz
      rcases mem_insertSorted hz with hz | hz
      · rw [hz]
        rcases metaLE_total x y with ht | ht
        · exact absurd ht hle
        · exact ht
      · exact hy z hz

lemma pairwise_sortMetas (l : List Meta) :
    (sortMetas l).Pairwise (fun a b => metaLE a b = true) := by
  induction l with
  | nil => simp [sortMetas]
  | cons x xs ih => exact pairwise_insertSorted x (sortMetas xs) ih

lemma mem_sortMetas {z : Meta} {l : List Meta} (h : z ∈ sortMetas l) : z ∈ l := by
  induction l with
  | nil => simpa [sortMetas] using h
  | cons x xs ih =>
    have h' : z ∈ insertSorted x (sortMetas xs) := h
    rcases mem_insertSorted h' with h'' | h''
    · rw [h'']; exact List.mem_cons_self x xs
    · exact List.mem_cons_of_mem x (ih h'')

lemma resolveAll_mem (ipre ehost tnet : String)
    (nls : List (String × List (String × String))) :
    ∀ (cs : List Container) (ms : List Meta) (m : Meta),
      resolveAll ipre ehost tnet nls cs = some ms → m ∈ ms →
      ∃ c ∈ cs, resolveContainer ipre ehost tnet nls c = ResolveOutcome.record m := by
  intro cs
  induction cs with
  | nil =>
    intro ms m h hm
    simp only [resolveAll, Option.some.injEq] at h
    rw [← h] at hm
    simp at hm
  | cons c rest ih =>
    intro ms m h hm
    simp only [resolveAll] at h
    cases hc : resolveContainer ipre ehost tnet nls c with
    | skip =>
      rw [hc] at h
      obtain ⟨c', hc', hrec⟩ := ih ms m h hm
      exact ⟨c', List.mem_cons_of_mem c hc', hrec⟩
    | crash => rw [hc] at h; simp at h
    | record m' =>
      rw [hc] at h
      cases hr : resolveAll ipre ehost tnet nls rest with
      | none => rw [hr] at h; simp at h
      | some ms' =>
        rw [hr] at h
        simp only [Option.some.injEq] at h
        rw [← h] at hm
        rcases List.mem_cons.mp hm with hm | hm
        · refine ⟨c, List.mem_cons_self c rest, ?_⟩
          rw [← hm] at hc
          exact hc
        · obtain ⟨c', hc', hrec⟩ := ih ms' m hr hm
          exact ⟨c', List.mem_cons_of_mem c hc', hrec⟩

/-! Structural lemmas about the embedded extract. -/

lemma finishMeta_fields (ipre ehost : String)
    (nls : List (String × List (String × String))) (nm : String) (hj ext : Bool)
    (l1 : List (String × String)) (ip port0 : String) (p : Port) (expl : Bool)
    (n : Network) :
    (finishMeta ipre ehost nls nm hj ext l1 ip port0 p expl n).Name = nm ∧
    (finishMeta ipre ehost nls nm hj ext l1 ip port0 p expl n).HasJob = hj ∧
    (finishMeta ipre ehost nls nm hj ext l1 ip port0 p expl n).IsInTargetNetwork = true ∧
    (finishMeta ipre ehost nls nm hj ext l1 ip port0 p expl n).HasTCPPorts = true ∧
    (finishMeta ipre ehost nls nm hj ext l1 ip port0 p expl n).HasExplicitPort = expl ∧
    (finishMeta ipre ehost nls nm hj ext l1 ip port0 p expl n).ScrapeExternal = ext ∧
    (finishMeta ipre ehost nls nm hj ext l1 ip port0 p expl n).Address =
      (if ext then
        joinHostPort ehost (if port0 = "" then formatUint p.PrivatePort else port0)
      else
        joinHostPort ip (if port0 = "" then formatUint p.PrivatePort else port0)) := by
  simp [finishMeta]

lemma finishMeta_Address_ne_empty (ipre ehost : String)
    (nls : List (String × List (String × String))) (nm : String) (hj ext : Bool)
    (l1 : List (String × String)) (ip port0 : String) (p : Port) (expl : Bool)
    (n : Network) :
    ¬ ((finishMeta ipre ehost nls nm hj ext l1 ip port0 p expl n).Address = "") := by
  have h := (finishMeta_fields ipre ehost nls nm hj ext l1 ip port0 p expl n).2.2.2.2.2.2
  rw [h]
  cases ext
  · simp only [Bool.false_eq_true, if_false]
    exact joinHostPort_ne_empty _ _
  · simp only [if_true]
    exact joinHostPort_ne_empty _ _

lemma resolveNet_fields (ipre ehost : String)
    (nls : List (String × List (String × String))) (c : Container) (nm : String)
    (hj : Bool) (st : LabelState) (n : Network) :
    (resolveNet ipre ehost nls c nm hj st n).HasJob = hj ∧
    (resolveNet ipre ehost nls c nm hj st n).IsInTargetNetwork = true ∧
    ((¬ ((resolveNet ipre ehost nls c nm hj st n).Address = "")) ↔
      (resolveNet ipre ehost nls c nm hj st n).HasTCPPorts = true) := by
  simp only [resolveNet]
  split
  · next p hm =>
    refine ⟨(finishMeta_fields _ _ _ _ _ _ _ _ _ _ _ _).2.1,
      (finishMeta_fields _ _ _ _ _ _ _ _ _ _ _ _).2.2.1, ?_⟩
    rw [(finishMeta_fields _ _ _ _ _ _ _ _ _ _ _ _).2.2.2.1]
    simp only [iff_true]
    exact finishMeta_Address_ne_empty _ _ _ _ _ _ _ _ _ _ _ _
  · next hm =>
    by_cases hr : (findLowestTCPPrivatePort
        (portsAndIP c.Ports st.port n.IPAddress).1).2.2 = true
    · rw [if_pos hr]
      refine ⟨(finishMeta_fields _ _ _ _ _ _ _ _ _ _ _ _).2.1,
        (finishMeta_fields _ _ _ _ _ _ _ _ _ _ _ _).2.2.1, ?_⟩
      rw [(finishMeta_fields _ _ _ _ _ _ _ _ _ _ _ _).2.2.2.1]
      simp only [iff_true]
      exact finishMeta_Address_ne_empty _ _ _ _ _ _ _ _ _ _ _ _
    · rw [if_neg hr]
      simp

lemma resolveContainer_net (ipre ehost tnet : String)
    (nls : List (String × List (String × String))) (c : Container) (nm : String)
    (rest : List String) (n : Network)
    (hc : c.Names = nm :: rest) (hn : lookupNet c.Networks tnet = some n) :
    resolveContainer ipre ehost tnet nls c =
      ResolveOutcome.record (resolveNet ipre ehost nls c nm
        ((lookupLM c.Labels jobLabelKey).isSome)
        (labelScan c.Labels (LabelState.mk (initLabels c nm) "" false)) n) := by
  unfold resolveContainer
  rw [hc, hn]

lemma resolveContainer_nonet (ipre ehost tnet : String)
    (nls : List (String × List (String × String))) (c : Container) (nm : String)
    (rest : List String)
    (hc : c.Names = nm :: rest) (hn : lookupNet c.Networks tnet = none) :
    resolveContainer ipre ehost tnet nls c =
      (if (labelScan c.Labels (LabelState.mk (initLabels c nm) "" false)).scrapeExternal then
        ResolveOutcome.crash
      else
        ResolveOutcome.record (Meta.mk nm "" (labelScan c.Labels
          (LabelState.mk (initLabels c nm) "" false)).labels
          ((lookupLM c.Labels jobLabelKey).isSome) false false false
          (labelScan c.Labels (LabelState.mk (initLabels c nm) "" false)).scrapeExternal)) := by
  unfold resolveContainer
  rw [hc, hn]

lemma resolveContainer_record_cases (ipre ehost tnet : String)
    (nls : List (String × List (String × String))) (c : Container) (m : Meta)
    (h : resolveContainer ipre ehost tnet nls c = ResolveOutcome.record m) :
    ((¬ (m.Address = "")) ↔ (m.IsInTargetNetwork = true ∧ m.HasTCPPorts = true)) ∧
    m.HasJob = (lookupLM c.Labels jobLabelKey).isSome := by
  cases hc : c.Names with
  | nil =>
    exfalso
    unfold resolveContainer at h
    rw [hc] at h
    exact ResolveOutcome.noConfusion h
  | cons nm rest =>
    cases hn : lookupNet c.Networks tnet with
    | some n =>
      have h2 := resolveContainer_net ipre ehost tnet nls c nm rest n hc hn
      rw [h2] at h
      have hm : resolveNet ipre ehost nls c nm ((lookupLM c.Labels jobLabelKey).isSome)
          (labelScan c.Labels (LabelState.mk (initLabels c nm) "" false)) n = m := by
        injection h
      obtain ⟨f1, f2, f3⟩ := resolveNet_fields ipre ehost nls c nm
        ((lookupLM c.Labels jobLabelKey).isSome)
        (labelScan c.Labels (LabelState.mk (initLabels c nm) "" false)) n
      rw [hm] at f1 f2 f3
      refine ⟨?_, f1⟩
      rw [f3, f2]
      simp
    | none =>
      have h2 := resolveContainer_nonet ipre ehost tnet nls c nm rest hc hn
      rw [h2] at h
      by_cases hext : (labelScan c.Labels
          (LabelState.mk (initLabels c nm) "" false)).scrapeExternal = true
      · rw [if_pos hext] at h
        exact absurd h (by intro hh; exact ResolveOutcome.noConfusion hh)
      · rw [if_neg hext] at h
        have hm : Meta.mk nm "" (labelScan c.Labels
            (LabelState.mk (initLabels c nm) "" false)).labels
            ((lookupLM c.Labels jobLabelKey).isSome) false false false
            (labelScan c.Labels (LabelState.mk (initLabels c nm) "" false)).scrapeExternal
            = m := by
          injection h
        rw [← hm]
        simp

lemma goUint16OfInt_lt (i : Int) : goUint16OfInt i < 65536 := by
  unfold goUint16OfInt
  have h1 : (0 : Int) ≤ i % 65536 := Int.emod_nonneg i (by norm_num)
  have h2 : i % 65536 < 65536 := Int.emod_lt_of_pos i (by norm_num)
  omega

lemma portsAndIP_noSynth (ports0 : List Port) (p0 ip : String) (h : ¬ (ports0 = [])) :
    portsAndIP ports0 p0 ip = (ports0, ip) := by
  simp [portsAndIP, h]

lemma portsAndIP_noPort (ports0 : List Port) (ip : String) :
    portsAndIP ports0 "" ip = (ports0, ip) := by
  simp [portsAndIP]

lemma resolveNet_match (ipre ehost : String)
    (nls : List (String × List (String × String))) (c : Container) (nm : String)
    (hj : Bool) (st : LabelState) (n : Network) (p : Port)
    (hm : matchScrapePort (portsAndIP c.Ports st.port n.IPAddress).1 st.port = some p) :
    resolveNet ipre ehost nls c nm hj st n =
      finishMeta ipre ehost nls nm hj st.scrapeExternal
        (insertLM st.labels dockerLabelNetworkIP (portsAndIP c.Ports st.port n.IPAddress).2)
        (portsAndIP c.Ports st.port n.IPAddress).2 st.port p true n := by
  simp only [resolveNet, hm]

lemma resolveNet_nomatch_found (ipre ehost : String)
    (nls : List (String × List (String × String))) (c : Container) (nm : String)
    (hj : Bool) (st : LabelState) (n : Network)
    (hm : matchScrapePort (portsAndIP c.Ports st.port n.IPAddress).1 st.port = none)
    (hf : (findLowestTCPPrivatePort (portsAndIP c.Ports st.port n.IPAddress).1).2.2
      = true) :
    resolveNet ipre ehost nls c nm hj st n =
      finishMeta ipre ehost nls nm hj st.scrapeExternal
        (insertLM st.labels dockerLabelNetworkIP (portsAndIP c.Ports st.port n.IPAddress).2)
        (portsAndIP c.Ports st.port n.IPAddress).2 st.port
        (findLowestTCPPrivatePort (portsAndIP c.Ports st.port n.IPAddress).1).1
        (((findLowestTCPPrivatePort (portsAndIP c.Ports st.port n.IPAddress).1).2.1 == 1)
          || (st.port != "")) n := by
  simp only [resolveNet, hm, hf, if_true]

lemma resolveNet_lowest (ipre ehost : String)
    (nls : List (String × List (String × String))) (c : Container) (nm : String)
    (hj : Bool) (st : LabelState) (n : Network)
    (hp : st.port = "")
    (hex : ∃ x ∈ c.Ports, x.typ = "tcp" ∧ x.PrivatePort < 65535) :
    resolveNet ipre ehost nls c nm hj st n =
      finishMeta ipre ehost nls nm hj st.scrapeExternal
        (insertLM st.labels dockerLabelNetworkIP n.IPAddress) n.IPAddress ""
        (findLowestTCPPrivatePort c.Ports).1
        ((findLowestTCPPrivatePort c.Ports).2.1 == 1) n := by
  have hpr : portsAndIP c.Ports st.port n.IPAddress = (c.Ports, n.IPAddress) := by
    rw [hp]; exact portsAndIP_noPort c.Ports n.IPAddress
  have hm : matchScrapePort (portsAndIP c.Ports st.port n.IPAddress).1 st.port = none := by
    rw [hpr, hp]; exact matchScrapePort_empty c.Ports
  have hf : (findLowestTCPPrivatePort (portsAndIP c.Ports st.port n.IPAddress).1).2.2
      = true := by
    rw [hpr]; exact (findLowest_found c.Ports hex).1
  rw [resolveNet_nomatch_found ipre ehost nls c nm hj st n hm hf, hpr, hp]
  simp

lemma resolveNet_synth (ipre ehost : String)
    (nls : List (String × List (String × String))) (c : Container) (nm : String)
    (hj : Bool) (st : LabelState) (n : Network)
    (hports : c.Ports = [])
    (hvne : ¬ (st.port = ""))
    (hok : goUint16OfInt (goAtoi st.port) = 65535 → st.port = "65535") :
    (resolveNet ipre ehost nls c nm hj st n).HasTCPPorts = true ∧
    (resolveNet ipre ehost nls c nm hj st n).HasExplicitPort = true ∧
    (resolveNet ipre ehost nls c nm hj st n).Address =
      (if st.scrapeExternal = true then joinHostPort ehost st.port
       else joinHostPort (if n.IPAddress = "" then fakeIP else n.IPAddress) st.port) := by
  have hpr : portsAndIP c.Ports st.port n.IPAddress =
      ([Port.mk "tcp" (goUint16OfInt (goAtoi st.port)) 0 ""],
       if n.IPAddress = "" then fakeIP else n.IPAddress) := by
    rw [hports]; simp [portsAndIP, hvne]
  by_cases hmt : formatUint (goUint16OfInt (goAtoi st.port)) = st.port
  · have hm : matchScrapePort (portsAndIP c.Ports st.port n.IPAddress).1 st.port =
        some (Port.mk "tcp" (goUint16OfInt (goAtoi st.port)) 0 "") := by
      rw [hpr]; simp [matchScrapePort, hmt]
    rw [resolveNet_match ipre ehost nls c nm hj st n _ hm]
    refine ⟨(finishMeta_fields _ _ _ _ _ _ _ _ _ _ _ _).2.2.2.1,
      (finishMeta_fields _ _ _ _ _ _ _ _ _ _ _ _).2.2.2.2.1, ?_⟩
    rw [(finishMeta_fields _ _ _ _ _ _ _ _ _ _ _ _).2.2.2.2.2.2, hpr]
    simp [hvne]
  · have hm : matchScrapePort (portsAndIP c.Ports st.port n.IPAddress).1 st.port = none := by
      rw [hpr]; simp [matchScrapePort, hmt]
    have hlt : goUint16OfInt (goAtoi st.port) < 65535 := by
      have h16 := goUint16OfInt_lt (goAtoi st.port)
      by_cases h55 : goUint16OfInt (goAtoi st.port) = 65535
      · exfalso
        apply hmt
        rw [h55, hok h55]
        decide
      · omega
    have hex : ∃ x ∈ (portsAndIP c.Ports st.port n.IPAddress).1,
        x.typ = "tcp" ∧ x.PrivatePort < 65535 := by
      rw [hpr]
      exact ⟨Port.mk "tcp" (goUint16OfInt (goAtoi st.port)) 0 "",
        List.mem_singleton.mpr rfl, rfl, hlt⟩
    have hf := (findLowest_found _ hex).1
    rw [resolveNet_nomatch_found ipre ehost nls c nm hj st n hm hf]
    refine ⟨(finishMeta_fields _ _ _ _ _ _ _ _ _ _ _ _).2.2.2.1, ?_, ?_⟩
    · rw [(finishMeta_fields _ _ _ _ _ _ _ _ _ _ _ _).2.2.2.2.1]
      simp [hvne]
    · rw [(finishMeta_fields _ _ _ _ _ _ _ _ _ _ _ _).2.2.2.2.2.2, hpr]
      simp [hvne]

/-! The claims. -/

/-- Container refuting claim C1: it lacks the prometheus_job label, yet
it is in the target network with one TCP port. -/
def c1cex : Container :=
  Container.mk "i1" ["a"] [] [Port.mk "tcp" 2000 0 ""]
    [("net", Network.mk "ip1" "nid")] "running" "bridge"

/-- Claim C1 counterexample: on a container without the prometheus_job
label that is in the target network with a TCP port, extract yields a
record with a NON-empty address ("ip1:2000") while IsExported is false —
refuting both the claimed equivalence of non-empty address with
IsExported and the claimed empty address for job-less containers. -/
theorem claim_C1_counterexample :
    (extract "p" "eh" "net" [c1cex] []).map
      (List.map (fun m => (m.Address, m.IsExported, m.HasJob))) =
      some [("ip1:2000", false, false)] ∧
    ¬ (("ip1:2000" : String) = "") :=
  ⟨by decide, by decide⟩

/-- Claim C1 (amended): for every record produced by extract, the
address is non-empty if and only if IsInTargetNetwork and HasTCPPorts
both hold — HasJob is not required, so IsExported is not equivalent to a
non-empty address. -/
theorem claim_C1 (ipre ehost tnet : String) (cs : List Container)
    (nls : List (String × List (String × String))) (m : Meta)
    (hm : m ∈ (extract ipre ehost tnet cs nls).getD []) :
    (¬ (m.Address = "")) ↔ (m.IsInTargetNetwork = true ∧ m.HasTCPPorts = true) := by
  cases hr : resolveAll ipre ehost tnet nls cs with
  | none =>
    exfalso
    have h0 : (extract ipre ehost tnet cs nls).getD [] = [] := by
      unfold extract; rw [hr]; rfl
    rw [h0] at hm
    simp at hm
  | some ms =>
    have h0 : (extract ipre ehost tnet cs nls).getD [] = sortMetas ms := by
      unfold extract; rw [hr]; rfl
    rw [h0] at hm
    obtain ⟨c, hc, hrec⟩ := resolveAll_mem ipre ehost tnet nls cs ms m hr (mem_sortMetas hm)
    exact (resolveContainer_record_cases ipre ehost tnet nls c m hrec).1

/-- Container witnessing claim C1 (amended) at a concrete input. -/
def c1wit : Container :=
  Container.mk "i1" ["a"] [("prometheus_job", "j")] [Port.mk "tcp" 2000 0 ""]
    [("net", Network.mk "ip1" "nid")] "s" "d"

/-- The record extract produces for `c1wit`. -/
def c1witMeta : Meta :=
  Meta.mk "a" "ip1:2000"
    [(dockerLabelContainerID, "i1"), (dockerLabelContainerName, "a"),
     (dockerLabelContainerState, "s"), (dockerLabelContainerNetworkMode, "d"),
     ("job", "j"), (dockerLabelNetworkIP, "ip1"), (dockerLabelPortPrivate, "2000"),
     (addressLabel, "ip1:2000"), (instanceLabel, "pa:2000")]
    true true true true false

/-- Witness for claim C1 (amended) at a concrete exported container. -/
theorem claim_C1_witness :
    c1witMeta ∈ (extract "p" "eh" "net" [c1wit] []).getD [] ∧
    ((¬ (c1witMeta.Address = "")) ↔
      (c1witMeta.IsInTargetNetwork = true ∧ c1witMeta.HasTCPPorts = true)) :=
  ⟨by decide, claim_C1 "p" "eh" "net" [c1wit] [] c1witMeta (by decide)⟩

/-- Container on which extract panics: prometheus_scrape_external is
"true" but there is no entry for the target network "net", so the Go
code dereferences the nil *EndpointSettings (docker.go line 227). -/
def c2bug : Container :=
  Container.mk "i2" ["x"] [("prometheus_scrape_external", "true")]
    [Port.mk "tcp" 2000 0 ""] [("other", Network.mk "ip9" "nid9")] "running" "bridge"

/-- Claim C2 (code bug): the resolver is claimed never to fail, in
particular on a container with scrape-external "true" and no entry for
the target network; on exactly that input the code dereferences a nil
pointer and panics, modelled here by extract returning none. -/
theorem claim_C2_bug : extract "p" "eh" "net" [c2bug] [] = none := by decide

/-- Container refuting the 65535 part of claim C3: its only TCP private
port is 65535. -/
def c3cex : Container :=
  Container.mk "i3" ["a"] [("prometheus_job", "j")] [Port.mk "tcp" 65535 0 ""]
    [("net", Network.mk "ip1" "nid")] "running" "bridge"

/-- Claim C3 counterexample: for a qualifying in-network container whose
non-empty TCP port list has 65535 as its only private port, the claim
says the lowest port (65535) is selected; the code instead treats the
container as having no TCP ports (the loop's found flag requires a
private port strictly below math.MaxUint16), producing no address. -/
theorem claim_C3_counterexample :
    c3cex.Ports = [Port.mk "tcp" 65535 0 ""] ∧
    (extract "p" "eh" "net" [c3cex] []).map
      (List.map (fun m => (m.Address, m.HasTCPPorts, m.HasExplicitPort))) =
      some [("", false, false)] :=
  ⟨by decide, by decide⟩

/-- Claim C3 (amended): for a container in the target network with no
explicit scrape-port value and at least one TCP port of private port
below 65535, the selected port is the lowest TCP private port (the
address uses it), and HasExplicitPort is true exactly when the distinct
TCP private-port count is 1; a list whose TCP ports all have private
port 65535 is instead treated as having no TCP ports. -/
theorem claim_C3 (ipre ehost tnet : String)
    (nls : List (String × List (String × String))) (c : Container) (nm : String)
    (rest : List String) (n : Network)
    (hc : c.Names = nm :: rest)
    (hn : lookupNet c.Networks tnet = some n)
    (hp : (labelScan c.Labels (LabelState.mk (initLabels c nm) "" false)).port = "")
    (hex : ∃ x ∈ c.Ports, x.typ = "tcp" ∧ x.PrivatePort < 65535) :
    ∃ m, resolveContainer ipre ehost tnet nls c = ResolveOutcome.record m ∧
      ∃ e, e ∈ c.Ports ∧ e.typ = "tcp" ∧
        (∀ x ∈ c.Ports, x.typ = "tcp" → e.PrivatePort ≤ x.PrivatePort) ∧
        m.HasTCPPorts = true ∧
        m.Address = joinHostPort
          (if (labelScan c.Labels (LabelState.mk (initLabels c nm) "" false)).scrapeExternal
            then ehost else n.IPAddress)
          (formatUint e.PrivatePort) ∧
        m.HasExplicitPort = (countNewDistinct [] (tcpPrivatePorts c.Ports) == 1) := by
  have hrec := resolveContainer_net ipre ehost tnet nls c nm rest n hc hn
  have hrn := resolveNet_lowest ipre ehost nls c nm
    ((lookupLM c.Labels jobLabelKey).isSome)
    (labelScan c.Labels (LabelState.mk (initLabels c nm) "" false)) n hp hex
  obtain ⟨hf, ht, hmem, hmin⟩ := findLowest_found c.Ports hex
  rw [hrec, hrn]
  refine ⟨_, rfl, (findLowestTCPPrivatePort c.Ports).1, hmem, ht, hmin, ?_, ?_, ?_⟩
  · exact (finishMeta_fields _ _ _ _ _ _ _ _ _ _ _ _).2.2.2.1
  · rw [(finishMeta_fields _ _ _ _ _ _ _ _ _ _ _ _).2.2.2.2.2.2]
    cases hext : (labelScan c.Labels
        (LabelState.mk (initLabels c nm) "" false)).scrapeExternal <;> simp [hext]
  · rw [(finishMeta_fields _ _ _ _ _ _ _ _ _ _ _ _).2.2.2.2.1, findLowest_cand]

/-- Container witnessing claim C3 (amended): ports {2000, 1000}, no
explicit label — 1000 must win and HasExplicitPort must be false. -/
def c3wit : Container :=
  Container.mk "i3w" ["a"] [("prometheus_job", "j")]
    [Port.mk "tcp" 2000 0 "", Port.mk "tcp" 1000 0 ""]
    [("net", Network.mk "ip1" "nid")] "r" "d"

/-- Witness for claim C3 (amended) on the ports {2000, 1000} scenario. -/
theorem claim_C3_witness :
    (c3wit.Names = "a" :: ([] : List String)) ∧
    (lookupNet c3wit.Networks "net" = some (Network.mk "ip1" "nid")) ∧
    ((labelScan c3wit.Labels (LabelState.mk (initLabels c3wit "a") "" false)).port = "") ∧
    (∃ x ∈ c3wit.Ports, x.typ = "tcp" ∧ x.PrivatePort < 65535) ∧
    (∃ m, resolveContainer "p" "eh" "net" [] c3wit = ResolveOutcome.record m ∧
      ∃ e, e ∈ c3wit.Ports ∧ e.typ = "tcp" ∧
        (∀ x ∈ c3wit.Ports, x.typ = "tcp" → e.PrivatePort ≤ x.PrivatePort) ∧
        m.HasTCPPorts = true ∧
        m.Address = joinHostPort
          (if (labelScan c3wit.Labels
              (LabelState.mk (initLabels c3wit "a") "" false)).scrapeExternal
            then "eh" else (Network.mk "ip1" "nid").IPAddress)
          (formatUint e.PrivatePort) ∧
        m.HasExplicitPort = (countNewDistinct [] (tcpPrivatePorts c3wit.Ports) == 1)) :=
  ⟨by decide, by decide, by decide, by decide,
    claim_C3 "p" "eh" "net" [] c3wit "a" [] (Network.mk "ip1" "nid")
      (by decide) (by decide) (by decide) (by decide)⟩

/-- Container refuting claim C4: explicit scrape-port 1998 with a port
list holding only a UDP entry (so no TCP private port matches 1998). -/
def c4cex : Container :=
  Container.mk "i4" ["a"] [("prometheus_job", "j"), ("prometheus_scrape_port", "1998")]
    [Port.mk "udp" 9 0 ""] [("net", Network.mk "ip1" "nid")] "running" "bridge"

/-- Claim C4 counterexample: a qualifying container with an explicit
scrape-port value matching no TCP private port is claimed to get an
address on that port with HasExplicitPort true; with a UDP-only port
list the code instead emits no address and HasExplicitPort = false. -/
theorem claim_C4_counterexample :
    (extract "p" "eh" "net" [c4cex] []).map
      (List.map (fun m => (m.Address, m.HasExplicitPort, m.HasTCPPorts))) =
      some [("", false, false)] := by decide

/-- Claim C4 (amended): for a container in the target network with an
explicit scrape-port value matching no TCP private port, the address
uses the explicit value and HasExplicitPort is true, provided the port
list holds at least one TCP entry with private port below 65535
(otherwise the container is treated as having no TCP ports). -/
theorem claim_C4 (ipre ehost tnet : String)
    (nls : List (String × List (String × String))) (c : Container) (nm : String)
    (rest : List String) (n : Network) (v : String)
    (hc : c.Names = nm :: rest)
    (hn : lookupNet c.Networks tnet = some n)
    (hv : (labelScan c.Labels (LabelState.mk (initLabels c nm) "" false)).port = v)
    (hvne : ¬ (v = ""))
    (hmatch : matchScrapePort c.Ports v = none)
    (hex : ∃ x ∈ c.Ports, x.typ = "tcp" ∧ x.PrivatePort < 65535) :
    ∃ m, resolveContainer ipre ehost tnet nls c = ResolveOutcome.record m ∧
      m.HasExplicitPort = true ∧ m.HasTCPPorts = true ∧
      m.Address = joinHostPort
        (if (labelScan c.Labels (LabelState.mk (initLabels c nm) "" false)).scrapeExternal
          then ehost else n.IPAddress) v := by
  have hne : ¬ (c.Ports = []) := by
    obtain ⟨x, hx, -, -⟩ := hex
    intro h
    rw [h] at hx
    simp at hx
  have hrec := resolveContainer_net ipre ehost tnet nls c nm rest n hc hn
  have hpr : portsAndIP c.Ports
      (labelScan c.Labels (LabelState.mk (initLabels c nm) "" false)).port n.IPAddress =
      (c.Ports, n.IPAddress) := by
    rw [hv]; exact portsAndIP_noSynth c.Ports v n.IPAddress hne
  have hm : matchScrapePort (portsAndIP c.Ports
      (labelScan c.Labels (LabelState.mk (initLabels c nm) "" false)).port n.IPAddress).1
      (labelScan c.Labels (LabelState.mk (initLabels c nm) "" false)).port = none := by
    rw [hpr, hv]; exact hmatch
  have hf : (findLowestTCPPrivatePort (portsAndIP c.Ports
      (labelScan c.Labels (LabelState.mk (initLabels c nm) "" false)).port
      n.IPAddress).1).2.2 = true := by
    rw [hpr]; exact (findLowest_found c.Ports hex).1
  have hrn := resolveNet_nomatch_found ipre ehost nls c nm
    ((lookupLM c.Labels jobLabelKey).isSome)
    (labelScan c.Labels (LabelState.mk (initLabels c nm) "" false)) n hm hf
  rw [hrec, hrn]
  refine ⟨_, rfl, ?_, ?_, ?_⟩
  · rw [(finishMeta_fields _ _ _ _ _ _ _ _ _ _ _ _).2.2.2.2.1, hv]
    simp [hvne]
  · exact (finishMeta_fields _ _ _ _ _ _ _ _ _ _ _ _).2.2.2.1
  · rw [(finishMeta_fields _ _ _ _ _ _ _ _ _ _ _ _).2.2.2.2.2.2, hpr, hv]
    cases hext : (labelScan c.Labels
        (LabelState.mk (initLabels c nm) "" false)).scrapeExternal <;> simp [hext, hvne]

/-- Container witnessing claim C4 (amended): ports {1000} with explicit
label 1998 — the spec's own example. -/
def c4wit : Container :=
  Container.mk "i4w" ["a"] [("prometheus_job", "j"), ("prometheus_scrape_port", "1998")]
    [Port.mk "tcp" 1000 0 ""] [("net", Network.mk "ip1" "nid")] "r" "d"

/-- Witness for claim C4 (amended) at ports {1000} with label 1998. -/
theorem claim_C4_witness :
    ((labelScan c4wit.Labels (LabelState.mk (initLabels c4wit "a") "" false)).port
      = "1998") ∧
    (matchScrapePort c4wit.Ports "1998" = none) ∧
    (∃ m, resolveContainer "p" "eh" "net" [] c4wit = ResolveOutcome.record m ∧
      m.HasExplicitPort = true ∧ m.HasTCPPorts = true ∧
      m.Address = joinHostPort
        (if (labelScan c4wit.Labels
            (LabelState.mk (initLabels c4wit "a") "" false)).scrapeExternal
          then "eh" else (Network.mk "ip1" "nid").IPAddress) "1998") :=
  ⟨by decide, by decide,
    claim_C4 "p" "eh" "net" [] c4wit "a" [] (Network.mk "ip1" "nid") "1998"
      (by decide) (by decide) (by decide) (by decide) (by decide) (by decide)⟩

/-- Container refuting claim C5: a single distinct TCP private port,
duplicated over two host bindings, whose value is 65535. -/
def c5cex : Container :=
  Container.mk "i5" ["a"] [("prometheus_job", "j")]
    [Port.mk "tcp" 65535 0 "", Port.mk "tcp" 65535 0 "1.2.3.4"]
    [("net", Network.mk "ip1" "nid")] "running" "bridge"

/-- Claim C5 counterexample: exactly one distinct TCP private port
(65535, duplicated across two bindings, candidate count 1) with no
explicit label is claimed to give HasExplicitPort = true; the code gives
false, because port 65535 is never selectable. -/
theorem claim_C5_counterexample :
    countNewDistinct [] (tcpPrivatePorts c5cex.Ports) = 1 ∧
    (extract "p" "eh" "net" [c5cex] []).map
      (List.map (fun m => m.HasExplicitPort)) = some [false] :=
  ⟨by decide, by decide⟩

/-- Claim C5 (amended): for a container in the target network with no
explicit scrape-port value and uint16 private ports: if the TCP entries
have exactly one distinct private port (duplicates across host bindings
counting once) and that port is below 65535, HasExplicitPort is true;
with two or more distinct TCP private ports, HasExplicitPort is false. -/
theorem claim_C5 (ipre ehost tnet : String)
    (nls : List (String × List (String × String))) (c : Container) (nm : String)
    (rest : List String) (n : Network)
    (hc : c.Names = nm :: rest)
    (hn : lookupNet c.Networks tnet = some n)
    (hp : (labelScan c.Labels (LabelState.mk (initLabels c nm) "" false)).port = "")
    (hwf : ∀ x ∈ c.Ports, x.PrivatePort < 65536) :
    (countNewDistinct [] (tcpPrivatePorts c.Ports) = 1 →
      (∃ x ∈ c.Ports, x.typ = "tcp" ∧ x.PrivatePort < 65535) →
      ∃ m, resolveContainer ipre ehost tnet nls c = ResolveOutcome.record m ∧
        m.HasExplicitPort = true) ∧
    (2 ≤ countNewDistinct [] (tcpPrivatePorts c.Ports) →
      ∃ m, resolveContainer ipre ehost tnet nls c = ResolveOutcome.record m ∧
        m.HasExplicitPort = false) := by
  have hrec := resolveContainer_net ipre ehost tnet nls c nm rest n hc hn
  constructor
  · intro h1 hex
    have hrn := resolveNet_lowest ipre ehost nls c nm
      ((lookupLM c.Labels jobLabelKey).isSome)
      (labelScan c.Labels (LabelState.mk (initLabels c nm) "" false)) n hp hex
    rw [hrec, hrn]
    refine ⟨_, rfl, ?_⟩
    rw [(finishMeta_fields _ _ _ _ _ _ _ _ _ _ _ _).2.2.2.2.1, findLowest_cand, h1]
    rfl
  · intro h2
    obtain ⟨p, hp1, q, hq1, hpq⟩ := cnd_two_distinct _ h2
    obtain ⟨xp, hxp, hxpt, hxpp⟩ := mem_tcpPrivatePorts hp1
    obtain ⟨xq, hxq, hxqt, hxqp⟩ := mem_tcpPrivatePorts hq1
    have hpl := hwf xp hxp
    have hql := hwf xq hxq
    have hex : ∃ x ∈ c.Ports, x.typ = "tcp" ∧ x.PrivatePort < 65535 := by
      by_cases hlt : p < q
      · exact ⟨xp, hxp, hxpt, by omega⟩
      · have hqp : q < p := by omega
        exact ⟨xq, hxq, hxqt, by omega⟩
    have hrn := resolveNet_lowest ipre ehost nls c nm
      ((lookupLM c.Labels jobLabelKey).isSome)
      (labelScan c.Labels (LabelState.mk (initLabels c nm) "" false)) n hp hex
    rw [hrec, hrn]
    refine ⟨_, rfl, ?_⟩
    rw [(finishMeta_fields _ _ _ _ _ _ _ _ _ _ _ _).2.2.2.2.1, findLowest_cand]
    have hne1 : ¬ (countNewDistinct [] (tcpPrivatePorts c.Ports) = 1) := by omega
    simp [hne1]

/-- Container witnessing claim C5 (amended): one distinct TCP private
port 2000 duplicated across two host bindings. -/
def c5wit : Container :=
  Container.mk "i5w" ["a"] [("prometheus_job", "j")]
    [Port.mk "tcp" 2000 0 "", Port.mk "tcp" 2000 0 "1.2.3.4"]
    [("net", Network.mk "ip1" "nid")] "r" "d"

/-- Witness for claim C5 (amended): the duplicated port counts once
(candidate tally 1) and yields HasExplicitPort = true. -/
theorem claim_C5_witness :
    (countNewDistinct [] (tcpPrivatePorts c5wit.Ports) = 1) ∧
    (∀ x ∈ c5wit.Ports, x.PrivatePort < 65536) ∧
    (∃ m, resolveContainer "p" "eh" "net" [] c5wit = ResolveOutcome.record m ∧
      m.HasExplicitPort = true) :=
  ⟨by decide, by decide,
    (claim_C5 "p" "eh" "net" [] c5wit "a" [] (Network.mk "ip1" "nid")
      (by decide) (by decide) (by decide) (by decide)).1 (by decide) (by decide)⟩

/-- Not-exported container named "a" for the C6 ordering scenario. -/
def c6a : Container := Container.mk "ca" ["a"] [] [] [] "r" "d"

/-- Exported container named "b" for the C6 ordering scenario. -/
def c6b : Container :=
  Container.mk "cb" ["b"] [("prometheus_job", "j")] [Port.mk "tcp" 2000 0 ""]
    [("net", Network.mk "ip1" "nid")] "r" "d"

/-- Exported container named "c" for the C6 ordering scenario. -/
def c6c : Container :=
  Container.mk "cc" ["c"] [("prometheus_job", "j")] [Port.mk "tcp" 2000 0 ""]
    [("net", Network.mk "ip1" "nid")] "r" "d"

/-- Claim C6: every extract result is pairwise ordered with not-exported
records before exported ones and, within equal exported status,
ascending by name; and the concrete scenario [b exported, a not
exported, c exported] resolves in the order a, b, c. -/
theorem claim_C6 :
    (∀ (ipre ehost tnet : String) (cs : List Container)
        (nls : List (String × List (String × String))),
      ((extract ipre ehost tnet cs nls).getD []).Pairwise
        (fun x y => (y.IsExported = false → x.IsExported = false) ∧
          (x.IsExported = y.IsExported → goStrLess y.Name x.Name = false))) ∧
    ((extract "h" "eh" "net" [c6b, c6a, c6c] []).map (List.map Meta.Name) =
      some ["a", "b", "c"]) := by
  constructor
  · intro ipre ehost tnet cs nls
    cases hr : resolveAll ipre ehost tnet nls cs with
    | none =>
      have h0 : (extract ipre ehost tnet cs nls).getD [] = [] := by
        unfold extract; rw [hr]; rfl
      rw [h0]
      exact List.Pairwise.nil
    | some ms =>
      have h0 : (extract ipre ehost tnet cs nls).getD [] = sortMetas ms := by
        unfold extract; rw [hr]; rfl
      rw [h0]
      refine List.Pairwise.imp ?_ (pairwise_sortMetas ms)
      intro a b hab
      have hles : metaLess b a = false := by simpa [metaLE] using hab
      constructor
      · intro hbe
        by_contra hne
        have hae : a.IsExported = true := by
          cases haa : a.IsExported
          · exact absurd haa hne
          · rfl
        have hco : metaLess b a = true := by simp [metaLess, hbe, hae]
        rw [hco] at hles
        exact absurd hles (by simp)
      · intro heq
        cases hea : a.IsExported with
        | false =>
          have hbe : b.IsExported = false := by rw [← heq, hea]
          simpa [metaLess, hea, hbe] using hles
        | true =>
          have hbe : b.IsExported = true := by rw [← heq, hea]
          simpa [metaLess, hea, hbe] using hles
  · decide

/-- Container refuting claim C7: no prometheus_job label, but a generic
export label prometheus_key1. -/
def c7cex : Container :=
  Container.mk "i7" ["a"] [("prometheus_key1", "val1")] [] [] "running" "bridge"

/-- Claim C7 counterexample: a container without the prometheus_job
label is claimed to get no labels beyond basic identity; the code still
runs the full label rewrite, so its record carries the exported generic
label key1 = val1 (while HasJob is false). -/
theorem claim_C7_counterexample :
    (extract "p" "eh" "net" [c7cex] []).map
      (List.map (fun m => (m.HasJob, lookupLM m.Labels "key1"))) =
      some [(false, some "val1")] := by decide

/-- Claim C7 (amended): every container without the prometheus_job label
yields a record with HasJob = false and IsExported = false; label
rewriting and resolution still run as for any other container. -/
theorem claim_C7 (ipre ehost tnet : String)
    (nls : List (String × List (String × String))) (c : Container) (m : Meta)
    (hnojob : lookupLM c.Labels jobLabelKey = none)
    (h : resolveContainer ipre ehost tnet nls c = ResolveOutcome.record m) :
    m.HasJob = false ∧ m.IsExported = false := by
  have h2 := (resolveContainer_record_cases ipre ehost tnet nls c m h).2
  rw [hnojob] at h2
  simp only [Option.isSome_none] at h2
  refine ⟨h2, ?_⟩
  unfold Meta.IsExported
  rw [h2]
  simp

/-- The record extract produces for `c7cex`. -/
def c7cexMeta : Meta :=
  Meta.mk "a" ""
    [(dockerLabelContainerID, "i7"), (dockerLabelContainerName, "a"),
     (dockerLabelContainerState, "running"), (dockerLabelContainerNetworkMode, "bridge"),
     ("key1", "val1")]
    false false false false false

/-- Witness for claim C7 (amended) at the concrete job-less container. -/
theorem claim_C7_witness :
    lookupLM c7cex.Labels jobLabelKey = none ∧
    resolveContainer "p" "eh" "net" [] c7cex = ResolveOutcome.record c7cexMeta ∧
    (c7cexMeta.HasJob = false ∧ c7cexMeta.IsExported = false) :=
  ⟨by decide, by decide,
    claim_C7 "p" "eh" "net" [] c7cex c7cexMeta (by decide) (by decide)⟩

/-- Container refuting claim C8: the raw label key prometheus_scrape_foo
sanitizes under the export prefix and is not a reserved control key. -/
def c8cex : Container :=
  Container.mk "i8" ["a"] [("prometheus_scrape_foo", "v")] [] [] "running" "bridge"

/-- Claim C8 counterexample: the raw key prometheus_scrape_foo sanitizes
to itself, begins with the export prefix prometheus_, and is none of the
six reserved scrape-control keys, so the claim demands an output entry
under the stripped key scrape_foo; the code drops it entirely (its
sanitized form falls under the scrape prefix and the raw-key switch has
no matching case). -/
theorem claim_C8_counterexample :
    goHasPre (sanitizeLabelName "prometheus_scrape_foo") extractLabelPre = true ∧
    ¬ ("prometheus_scrape_foo" = scrapePortKey) ∧
    ¬ ("prometheus_scrape_foo" = scrapeIntervalKey) ∧
    ¬ ("prometheus_scrape_foo" = scrapeTimeoutKey) ∧
    ¬ ("prometheus_scrape_foo" = scrapePathKey) ∧
    ¬ ("prometheus_scrape_foo" = scrapeSchemeKey) ∧
    ¬ ("prometheus_scrape_foo" = scrapeExternalKey) ∧
    goDrop (sanitizeLabelName "prometheus_scrape_foo") 11 = "scrape_foo" ∧
    (extract "p" "eh" "net" [c8cex] []).map
      (List.map (fun m => lookupLM m.Labels "scrape_foo")) = some [none] := by
  decide

/-- Claim C8 (amended): for every label whose sanitized key begins with
prometheus_ but not with prometheus_scrape_, the label-rewrite step maps
the stripped sanitized key to the original value and touches nothing
else; the stripped key always differs from the raw key, so the step adds
no entry under the raw key. -/
theorem claim_C8 (st : LabelState) (k v : String)
    (h1 : goHasPre (sanitizeLabelName k) extractLabelPre = true)
    (h2 : goHasPre (sanitizeLabelName k) extractScrapePre = false) :
    processLabel st (k, v) =
      LabelState.mk (insertLM st.labels (goDrop (sanitizeLabelName k) 11) v)
        st.port st.scrapeExternal ∧
    ¬ (goDrop (sanitizeLabelName k) 11 = k) ∧
    lookupLM (insertLM st.labels (goDrop (sanitizeLabelName k) 11) v) k =
      lookupLM st.labels k := by
  have h11 : extractLabelPre.data.length = 11 := by decide
  have hlen : 11 ≤ (sanitizeLabelName k).data.length := by
    have hpre := List.isPrefixOf_iff_prefix.mp h1
    have hle := hpre.length_le
    rw [h11] at hle
    exact hle
  have hdata : (sanitizeLabelName k).data.length = k.data.length := by
    simp [sanitizeLabelName]
  have hne : ¬ (goDrop (sanitizeLabelName k) 11 = k) := by
    intro he
    have hd := congrArg String.data he
    have hl := congrArg List.length hd
    simp only [goDrop, List.length_drop] at hl
    omega
  refine ⟨?_, hne, lookupLM_insertLM_ne st.labels _ v k hne⟩
  simp [processLabel, h1, h2]

/-- Witness for claim C8 (amended) at the spec's round-trip example
prometheus&=5b, whose stripped sanitized key is _5b. -/
theorem claim_C8_witness :
    (goHasPre (sanitizeLabelName "prometheus&=5b") extractLabelPre = true) ∧
    (goHasPre (sanitizeLabelName "prometheus&=5b") extractScrapePre = false) ∧
    (goDrop (sanitizeLabelName "prometheus&=5b") 11 = "_5b") ∧
    (processLabel (LabelState.mk [] "" false) ("prometheus&=5b", "val1") =
      LabelState.mk (insertLM ([] : List (String × String))
        (goDrop (sanitizeLabelName "prometheus&=5b") 11) "val1") "" false ∧
    ¬ (goDrop (sanitizeLabelName "prometheus&=5b") 11 = "prometheus&=5b") ∧
    lookupLM (insertLM ([] : List (String × String))
        (goDrop (sanitizeLabelName "prometheus&=5b") 11) "val1") "prometheus&=5b" =
      lookupLM ([] : List (String × String)) "prometheus&=5b") :=
  ⟨by decide, by decide, by decide,
    claim_C8 (LabelState.mk [] "" false) "prometheus&=5b" "val1" (by decide) (by decide)⟩

/-- Container refuting claim C9 at the boundary: empty port list with an
explicit scrape-port value "-1", whose uint16 conversion is 65535. -/
def c9cex : Container :=
  Container.mk "i9" ["a"] [("prometheus_job", "j"), ("prometheus_scrape_port", "-1")]
    [] [("net", Network.mk "ip1" "nid")] "running" "bridge"

/-- Claim C9 counterexample: with no live ports and the explicit value
"-1", the claim demands a synthesized TCP entry making HasTCPPorts true
and an address on that port; the synthesized private port is
uint16(Atoi("-1")) = 65535, which the lowest-port fallback can never
select, so the record has HasTCPPorts = false and no address. -/
theorem claim_C9_counterexample :
    goUint16OfInt (goAtoi "-1") = 65535 ∧
    (extract "p" "eh" "net" [c9cex] []).map
      (List.map (fun m => (m.Address, m.HasTCPPorts))) = some [("", false)] :=
  ⟨by decide, by decide⟩

/-- Claim C9 (amended): for a container in the target network with an
empty port list and a non-empty explicit scrape-port value, one TCP port
entry is synthesized, HasTCPPorts and HasExplicitPort become true, and
the address uses the explicit value as port with the placeholder host
1.1.1.1 substituted when the network IP is empty — unless the value's
uint16 conversion is 65535 while the value is not the string "65535"
(e.g. "-1"), in which case the synthesized entry is unselectable and the
record is treated as having no TCP ports. -/
theorem claim_C9 (ipre ehost tnet : String)
    (nls : List (String × List (String × String))) (c : Container) (nm : String)
    (rest : List String) (n : Network) (v : String)
    (hc : c.Names = nm :: rest)
    (hn : lookupNet c.Networks tnet = some n)
    (hports : c.Ports = [])
    (hv : (labelScan c.Labels (LabelState.mk (initLabels c nm) "" false)).port = v)
    (hvne : ¬ (v = ""))
    (hok : goUint16OfInt (goAtoi v) = 65535 → v = "65535") :
    ∃ m, resolveContainer ipre ehost tnet nls c = ResolveOutcome.record m ∧
      m.HasTCPPorts = true ∧ m.HasExplicitPort = true ∧
      m.Address = (if (labelScan c.Labels
          (LabelState.mk (initLabels c nm) "" false)).scrapeExternal = true
        then joinHostPort ehost v
        else joinHostPort (if n.IPAddress = "" then fakeIP else n.IPAddress) v) := by
  have hrec := resolveContainer_net ipre ehost tnet nls c nm rest n hc hn
  have hsy := resolveNet_synth ipre ehost nls c nm
    ((lookupLM c.Labels jobLabelKey).isSome)
    (labelScan c.Labels (LabelState.mk (initLabels c nm) "" false)) n hports
    (by rw [hv]; exact hvne) (by rw [hv]; exact hok)
  rw [hrec]
  refine ⟨_, rfl, hsy.1, hsy.2.1, ?_⟩
  rw [hsy.2.2, hv]

/-- Container witnessing claim C9 (amended): empty port list, explicit
value 1998, empty network IP (exercising the fake-IP substitution). -/
def c9wit : Container :=
  Container.mk "i9w" ["a"] [("prometheus_job", "j"), ("prometheus_scrape_port", "1998")]
    [] [("net", Network.mk "" "nid")] "r" "d"

/-- Witness for claim C9 (amended): port 1998 is synthesized and the
placeholder host 1.1.1.1 is used because the network IP is empty. -/
theorem claim_C9_witness :
    (c9wit.Ports = []) ∧
    ((labelScan c9wit.Labels (LabelState.mk (initLabels c9wit "a") "" false)).port
      = "1998") ∧
    (goUint16OfInt (goAtoi "1998") = 65535 → ("1998" : String) = "65535") ∧
    (∃ m, resolveContainer "p" "eh" "net" [] c9wit = ResolveOutcome.record m ∧
      m.HasTCPPorts = true ∧ m.HasExplicitPort = true ∧
      m.Address = (if (labelScan c9wit.Labels
          (LabelState.mk (initLabels c9wit "a") "" false)).scrapeExternal = true
        then joinHostPort "eh" "1998"
        else joinHostPort (if (Network.mk "" "nid").IPAddress = "" then fakeIP
          else (Network.mk "" "nid").IPAddress) "1998")) :=
  ⟨by decide, by decide, by decide,
    claim_C9 "p" "eh" "net" [] c9wit "a" [] (Network.mk "" "nid") "1998"
      (by decide) (by decide) (by decide) (by decide) (by decide) (by decide)⟩

/-- Claim C10: a label whose sanitized key falls under the scrape prefix
but whose raw key is none of the six control keys is discarded entirely
by the label-rewrite step: no control field is set and no output entry
is added under any key. -/
theorem claim_C10 (st : LabelState) (k v : String)
    (h1 : goHasPre (sanitizeLabelName k) extractScrapePre = true)
    (h2 : ¬ (k = scrapePortKey)) (h3 : ¬ (k = scrapeIntervalKey))
    (h4 : ¬ (k = scrapeTimeoutKey)) (h5 : ¬ (k = scrapePathKey))
    (h6 : ¬ (k = scrapeSchemeKey)) (h7 : ¬ (k = scrapeExternalKey)) :
    processLabel st (k, v) = st := by
  simp [processLabel, h1, h2, h3, h4, h5, h6, h7]

/-- Witness for claim C10 at the raw key prometheus_scrape&port (it
sanitizes to prometheus_scrape_port yet matches no raw control key). -/
theorem claim_C10_witness :
    (goHasPre (sanitizeLabelName "prometheus_scrape&port") extractScrapePre = true) ∧
    ¬ ("prometheus_scrape&port" = scrapePortKey) ∧
    (processLabel (LabelState.mk [("a", "b")] "" false) ("prometheus_scrape&port", "9") =
      LabelState.mk [("a", "b")] "" false) :=
  ⟨by decide, by decide,
    claim_C10 (LabelState.mk [("a", "b")] "" false) "prometheus_scrape&port" "9"
      (by decide) (by decide) (by decide) (by decide) (by decide) (by decide)
      (by decide)⟩

end DockerSD
